import Mathlib

/-!
# linuxptp UDP transport (`udp.c`) and clock-id helpers (`missing.h`)

A shallow embedding of the UDP/IPv4 multicast transport of linuxptp.

* Kernel and libc calls are modelled by their outcomes: every call takes the
  value the environment answers with as an argument, and appends itself to the
  `trace` of the `World`, which also holds the set of open descriptors.
* A call whose behaviour is undefined in C (a copy that overruns its buffer)
  has no result in the model (`none`).
* `recvmsg` sits inside a retry loop, so `receive` takes the list of outcomes
  of its successive `recvmsg` calls; running out of outcomes (`none`) means
  that `recvmsg` never answers.
* Payload bytes are not modelled; the control data is the list of records that
  `CMSG_FIRSTHDR` / `CMSG_NXTHDR` enumerate.
-/

namespace Linuxptp

/-! ## Constants of the system headers (Linux values) -/

def EINTR : Int := 4
def SOL_SOCKET : Int := 1
def SO_REUSEADDR : Int := 2
def SO_TIMESTAMPING : Int := 37
def IPPROTO_IP : Int := 0
def IP_MULTICAST_IF : Int := 32
def MCAST_JOIN_GROUP : Int := 42
def MSG_ERRQUEUE : Int := 0x2000
def SIOCGIFINDEX : Int := 0x8933
def SIOCSHWTSTAMP : Int := 0x89b0

def SOF_TIMESTAMPING_TX_HARDWARE : Nat := 1 <<< 0
def SOF_TIMESTAMPING_TX_SOFTWARE : Nat := 1 <<< 1
def SOF_TIMESTAMPING_RX_HARDWARE : Nat := 1 <<< 2
def SOF_TIMESTAMPING_RX_SOFTWARE : Nat := 1 <<< 3
def SOF_TIMESTAMPING_SOFTWARE : Nat := 1 <<< 4
def SOF_TIMESTAMPING_SYS_HARDWARE : Nat := 1 <<< 5
def SOF_TIMESTAMPING_RAW_HARDWARE : Nat := 1 <<< 6

/-- Size of the field `ifr_name` of `struct ifreq`. -/
def IFNAMSIZ : Nat := 16

/-- The value of `strlen(name)`: the bytes of the string in front of its
terminating NUL. -/
def strlen (name : String) : Nat :=
  (String.mk (name.data.takeWhile (fun c => c ≠ Char.ofNat 0))).utf8ByteSize

/-- Size of `struct sockaddr_in`, the `grplen` that `open_socket` passes. -/
def SIZEOF_SOCKADDR_IN : Nat := 16
/-- Size of `req.gr_group`, a `struct sockaddr_storage`. -/
def SIZEOF_GR_GROUP : Nat := 128

/-! ## Constants of `udp.c` -/

def EVENT_PORT : Int := 319
def GENERAL_PORT : Int := 320

/-- Indices into `fdarray.fd` (`udp_close` closes slots 0 and 1). -/
def FD_EVENT : Nat := 0
def FD_GENERAL : Nat := 1

/-! ## Data model -/

/-- Sizes fixed by the target ABI and used by the control-message code. -/
structure abi where
  /-- Value of `sizeof(struct timespec)`. -/
  sizeof_timespec : Nat
  /-- Value of `CMSG_LEN(0)`: the bytes of a record that precede its data. -/
  cmsg_hdr_len : Nat
deriving DecidableEq, Repr

/-- The LP64 Linux ABI (x86-64, aarch64). -/
def lp64 : abi := ⟨16, 16⟩

structure timespec where
  tv_sec : Int
  tv_nsec : Int
deriving DecidableEq, Repr

/-- The result of `memset(&hwts->ts, 0, sizeof(hwts->ts))`. -/
def timespec.zero : timespec := ⟨0, 0⟩

/-- Values of `enum timestamp_type`; `TS_OTHER` stands for any value of the
underlying integer type that is none of the three enumerators. -/
inductive timestamp_type where
  | TS_SOFTWARE
  | TS_HARDWARE
  | TS_LEGACY_HW
  | TS_OTHER
deriving DecidableEq, Repr

open timestamp_type

structure hw_timestamp where
  type : timestamp_type
  ts : timespec
deriving DecidableEq, Repr

/-- The descriptor array: `int cnt; int fd[]`. -/
structure fdarray where
  cnt : Int
  fd : Nat → Int

/-- One control-message record as `receive` sees it: the three header fields
and the memory at `CMSG_DATA(cm)` read as an array of `struct timespec`
(`data i` is what `ts[i]` evaluates to, whether or not slot `i` lies inside
the record). -/
structure cmsghdr where
  cmsg_len : Nat
  cmsg_level : Int
  cmsg_type : Int
  data : Nat → timespec

/-- Bytes of data a record carries: `cmsg_len` minus the header length. -/
def cmsghdr.payload_len (a : abi) (cm : cmsghdr) : Nat :=
  cm.cmsg_len - a.cmsg_hdr_len

/-- The test `SOL_SOCKET == level && SO_TIMESTAMPING == type`. -/
def cmsghdr.is_timestamping (cm : cmsghdr) : Bool :=
  decide (SOL_SOCKET = cm.cmsg_level) && decide (SO_TIMESTAMPING = cm.cmsg_type)

/-- System calls, as recorded in the trace. A `socket` entry carries the value
the call returned; an `ioctl` entry carries the interface name the request is
made for. -/
inductive Call where
  | socket (ret : Int)
  | ioctl (fd : Int) (request : Int) (name : String)
  | setsockopt (fd : Int) (level : Int) (optname : Int) (value : Int)
  | bind (fd : Int) (port : Int)
  | close (fd : Int)
  | sendto (fd : Int) (len : Int) (port : Int)
  | recvmsg (fd : Int) (buflen : Int) (flags : Int)
deriving DecidableEq, Repr

/-- The part of the process state the transport acts on. -/
structure World where
  open_fds : Finset Int
  trace : List Call
deriving DecidableEq

/-- Log one system call. -/
def World.record (w : World) (c : Call) : World :=
  { w with trace := w.trace ++ [c] }

/-- Outcome of one `recvmsg` call: the count returned, `errno` after the call
and the control records found in `msg` after the call. -/
structure recvmsg_result where
  cnt : Int
  errno : Int
  control : List cmsghdr

/-- The test `cnt < 0` and `EINTR == errno` that sends `receive` back to `again`. -/
def recvmsg_result.interrupted (o : recvmsg_result) : Bool :=
  decide (o.cnt < 0) && decide (EINTR = o.errno)

/-- What a transfer function hands back: return value, the caller's
`hw_timestamp` and the world after the call. -/
structure io_result where
  ret : Int
  hwts : hw_timestamp
  world : World
deriving DecidableEq

/-! ## `receive` and `udp_send` -/

/-- Outcome of the scan over the control records in `receive`. -/
inductive scan_result where
  /-- The `return -1` after "short SO_TIMESTAMPING". -/
  | short
  /-- The loop ended with `ts == NULL`. -/
  | absent
  /-- The loop left through `break` with `ts = CMSG_DATA(cm)`. -/
  | found (ts : Nat → timespec)

/-- The `for (cm = CMSG_FIRSTHDR(&msg); cm != NULL; cm = CMSG_NXTHDR(&msg, cm))`
loop of `receive`. -/
def scan_control (a : abi) : List cmsghdr → scan_result
  | [] => scan_result.absent
  | cm :: rest =>
    if cm.is_timestamping then
      if cm.cmsg_len < a.sizeof_timespec * 3 then scan_result.short
      else scan_result.found cm.data
    else scan_control a rest

/-- The part of `receive` after the `recvmsg` retry loop. -/
def receive_finish (a : abi) (o : recvmsg_result) (hwts : hw_timestamp) (w : World) :
    io_result :=
  match scan_control a o.control with
  | scan_result.short => ⟨-1, hwts, w⟩
  | scan_result.absent => ⟨o.cnt, { hwts with ts := timespec.zero }, w⟩
  | scan_result.found ts =>
    match hwts.type with
    | TS_SOFTWARE => ⟨o.cnt, { hwts with ts := ts 0 }, w⟩
    | TS_HARDWARE => ⟨o.cnt, { hwts with ts := ts 2 }, w⟩
    | TS_LEGACY_HW => ⟨o.cnt, { hwts with ts := ts 1 }, w⟩
    | TS_OTHER => ⟨o.cnt, hwts, w⟩

/-- The function `receive`; the first argument lists the outcomes of the
successive `recvmsg` calls. -/
def receive (a : abi) : List recvmsg_result → Int → Int → hw_timestamp → Int → World →
    Option io_result
  | [], _, _, _, _, _ => none
  | o :: rest, fd, buflen, hwts, flags, w =>
    if o.interrupted then
      receive a rest fd buflen hwts flags (w.record (Call.recvmsg fd buflen flags))
    else
      some (receive_finish a o hwts (w.record (Call.recvmsg fd buflen flags)))

/-- The function `udp_recv`. -/
def udp_recv (a : abi) (script : List recvmsg_result) (fd buflen : Int)
    (hwts : hw_timestamp) (w : World) : Option io_result :=
  receive a script fd buflen hwts 0 w

/-- The function `udp_send`; `sendto_ret` is what `sendto` returns and `script`
lists the outcomes of the `recvmsg` calls made afterwards. -/
def udp_send (a : abi) (sendto_ret : Int) (script : List recvmsg_result)
    (fda : fdarray) (event : Int) (len : Int) (hwts : hw_timestamp) (w : World) :
    Option io_result :=
  let fd := if event ≠ 0 then fda.fd FD_EVENT else fda.fd FD_GENERAL
  let port := if event ≠ 0 then EVENT_PORT else GENERAL_PORT
  let w1 := w.record (Call.sendto fd len port)
  let cnt := sendto_ret
  if cnt < 1 then some ⟨cnt, hwts, w1⟩
  else if event ≠ 0 then receive a script fd len hwts MSG_ERRQUEUE w1
  else some ⟨cnt, hwts, w1⟩

/-! ## Opening the transport -/

/-- The call `socket(PF_INET, SOCK_DGRAM, IPPROTO_UDP)` returning `ret`: a
non-negative `ret` is a descriptor that is open from now on. -/
def sys_socket (ret : Int) (w : World) : Int × World :=
  if ret < 0 then (ret, w.record (Call.socket ret))
  else (ret, { open_fds := insert ret w.open_fds, trace := w.trace ++ [Call.socket ret] })

/-- The call `close(fd)`: the descriptor is released whatever `close` returns. -/
def sys_close (fd : Int) (w : World) : World :=
  { open_fds := w.open_fds.erase fd, trace := w.trace ++ [Call.close fd] }

/-- The function `hwts_init`; `ioctl_ret` is what `ioctl(fd, SIOCSHWTSTAMP, ..)`
returns and `errno` the value of `errno` read by the `return` statement. The
name is copied with `strncpy` bounded by `sizeof(ifreq.ifr_name)`, which stays
inside the buffer for every `device`. -/
def hwts_init (ioctl_ret errno : Int) (fd : Int) (device : String) (w : World) :
    Int × World :=
  let err := ioctl_ret
  (if err ≠ 0 then errno else 0, w.record (Call.ioctl fd SIOCSHWTSTAMP device))

/-- Outcomes of the system calls of `timestamping_init`. -/
structure timestamping_env where
  hwtstamp_ioctl : Int
  hwtstamp_errno : Int
  so_timestamping : Int
deriving DecidableEq, Repr

/-- The `switch (type)` of `timestamping_init`; `none` is the `default:` branch. -/
def timestamping_flags : timestamp_type → Option Nat
  | TS_SOFTWARE =>
    some (SOF_TIMESTAMPING_TX_SOFTWARE ||| SOF_TIMESTAMPING_RX_SOFTWARE |||
      SOF_TIMESTAMPING_SOFTWARE)
  | TS_HARDWARE =>
    some (SOF_TIMESTAMPING_TX_HARDWARE ||| SOF_TIMESTAMPING_RX_HARDWARE |||
      SOF_TIMESTAMPING_RAW_HARDWARE)
  | TS_LEGACY_HW =>
    some (SOF_TIMESTAMPING_TX_HARDWARE ||| SOF_TIMESTAMPING_RX_HARDWARE |||
      SOF_TIMESTAMPING_SYS_HARDWARE)
  | TS_OTHER => none

/-- The `setsockopt(fd, SOL_SOCKET, SO_TIMESTAMPING, &flags, ..)` step of
`timestamping_init` and what follows it. -/
def timestamping_setsockopt (ret : Int) (fd : Int) (flags : Nat) (w : World) :
    Int × World :=
  if ret < 0 then (-1, w.record (Call.setsockopt fd SOL_SOCKET SO_TIMESTAMPING flags))
  else (0, w.record (Call.setsockopt fd SOL_SOCKET SO_TIMESTAMPING flags))

/-- The function `timestamping_init`. -/
def timestamping_init (e : timestamping_env) (fd : Int) (device : String)
    (type : timestamp_type) (w : World) : Int × World :=
  match timestamping_flags type with
  | none => (-1, w)
  | some flags =>
    if type ≠ TS_SOFTWARE then
      let h := hwts_init e.hwtstamp_ioctl e.hwtstamp_errno fd device w
      if h.1 ≠ 0 then (-1, h.2)
      else timestamping_setsockopt e.so_timestamping fd flags h.2
    else timestamping_setsockopt e.so_timestamping fd flags w

/-- The function `interface_index`; `ioctl_ret` is what `ioctl(fd, SIOCGIFINDEX, ..)`
returns and `ifr_ifindex` the field of the request after the call.
`strcpy(ifreq.ifr_name, name)` writes `strlen(name) + 1` bytes into the
`IFNAMSIZ` bytes of `ifr_name`: a name that does not fit overruns the buffer,
the behaviour is undefined and the model gives no result (`none`). -/
def interface_index (ioctl_ret ifr_ifindex : Int) (fd : Int) (name : String) (w : World) :
    Option (Int × World) :=
  if IFNAMSIZ ≤ strlen name then none
  else
    let err := ioctl_ret
    if err < 0 then some (err, w.record (Call.ioctl fd SIOCGIFINDEX name))
    else some (ifr_ifindex, w.record (Call.ioctl fd SIOCGIFINDEX name))

/-- The function `mcast_bind`; `ret` is what `setsockopt` returns. -/
def mcast_bind (ret : Int) (fd index : Int) (w : World) : Int × World :=
  let err := ret
  if err ≠ 0 then (-1, w.record (Call.setsockopt fd IPPROTO_IP IP_MULTICAST_IF index))
  else (0, w.record (Call.setsockopt fd IPPROTO_IP IP_MULTICAST_IF index))

/-- The function `mcast_join`; `ret` is what `setsockopt` returns. -/
def mcast_join (ret : Int) (fd index : Int) (grplen : Nat) (w : World) : Int × World :=
  if grplen > SIZEOF_GR_GROUP then (-1, w)
  else
    let err := ret
    if err ≠ 0 then (-1, w.record (Call.setsockopt fd IPPROTO_IP MCAST_JOIN_GROUP index))
    else (0, w.record (Call.setsockopt fd IPPROTO_IP MCAST_JOIN_GROUP index))

/-- The function `udp_close`. -/
def udp_close (fda : fdarray) (w : World) : Int × World :=
  (0, sys_close (fda.fd 1) (sys_close (fda.fd 0) w))

/-- Outcomes of the system calls of one `open_socket` call. -/
structure open_socket_env where
  /-- Return value of `socket`. -/
  socket : Int
  /-- Return value of `ioctl(fd, SIOCGIFINDEX, ..)`. -/
  ifindex_ioctl : Int
  /-- Field `ifr_ifindex` after that `ioctl`. -/
  ifr_ifindex : Int
  /-- Return value of `setsockopt(.., SO_REUSEADDR, ..)`. -/
  reuseaddr : Int
  /-- Return value of `bind`. -/
  bind : Int
  /-- Return value of `setsockopt(.., MCAST_JOIN_GROUP, ..)`. -/
  mcast_join : Int
  /-- Return value of `setsockopt(.., IP_MULTICAST_IF, ..)`. -/
  mcast_if : Int
deriving DecidableEq, Repr

/-- The steps of `open_socket` between the creation of the socket and the
`return fd`; `false` stands for a `goto no_option`. -/
def open_socket_options (e : open_socket_env) (name : String) (port : Int) (fd : Int)
    (w : World) : Option (Bool × World) :=
  match interface_index e.ifindex_ioctl e.ifr_ifindex fd name w with
  | none => none
  | some ix =>
    let index := ix.1
    if index < 0 then some (false, ix.2)
    else
      let w3 := ix.2.record (Call.setsockopt fd SOL_SOCKET SO_REUSEADDR 1)
      if e.reuseaddr ≠ 0 then some (false, w3)
      else
        let w4 := w3.record (Call.bind fd port)
        if e.bind ≠ 0 then some (false, w4)
        else
          let j := mcast_join e.mcast_join fd index SIZEOF_SOCKADDR_IN w4
          if j.1 ≠ 0 then some (false, j.2)
          else
            let b := mcast_bind e.mcast_if fd index j.2
            if b.1 ≠ 0 then some (false, b.2)
            else some (true, b.2)

/-- The function `open_socket` (the multicast address is the fixed group and
is not modelled). -/
def open_socket (e : open_socket_env) (name : String) (port : Int) (w : World) :
    Option (Int × World) :=
  let s := sys_socket e.socket w
  let fd := s.1
  if fd < 0 then some (-1, s.2)
  else
    match open_socket_options e name port fd s.2 with
    | none => none
    | some o =>
      if o.1 then some (fd, o.2)
      else some (-1, sys_close fd o.2)

/-- Outcomes of the library and system calls of one `udp_open` call. Every call
site runs at most once, so one value per site covers every run. -/
structure udp_open_env where
  /-- Return value of `inet_aton(MULTICAST_IP_ADDR, &mc_addr)`. -/
  inet_aton : Int
  event : open_socket_env
  general : open_socket_env
  timestamping : timestamping_env
deriving DecidableEq, Repr

/-- What `udp_open` hands back: return value, the caller's `fdarray` and the
world after the call. -/
structure udp_open_result where
  ret : Int
  fda : fdarray
  world : World

/-- The function `udp_open`. -/
def udp_open (e : udp_open_env) (name : String) (fda : fdarray) (ts_type : timestamp_type)
    (w : World) : Option udp_open_result :=
  if e.inet_aton = 0 then some ⟨-1, fda, w⟩
  else
    match open_socket e.event name EVENT_PORT w with
    | none => none
    | some ev =>
      let efd := ev.1
      if efd < 0 then some ⟨-1, fda, ev.2⟩
      else
        match open_socket e.general name GENERAL_PORT ev.2 with
        | none => none
        | some ge =>
          let gfd := ge.1
          if gfd < 0 then some ⟨-1, fda, sys_close efd ge.2⟩
          else
            let ti := timestamping_init e.timestamping efd name ts_type ge.2
            if ti.1 ≠ 0 then some ⟨-1, fda, sys_close efd (sys_close gfd ti.2)⟩
            else
              some ⟨0, { cnt := 2,
                         fd := Function.update (Function.update fda.fd FD_EVENT efd)
                           FD_GENERAL gfd },
                ti.2⟩

/-! ## Clock-id encoding (`missing.h`) -/

def CLOCKFD : Int := 3

/-- Conversion to a 32-bit signed integer (`clockid_t`, `int`). -/
def wrap_s32 (x : Int) : Int := (x + 2 ^ 31) % 2 ^ 32 - 2 ^ 31

/-- Conversion to `unsigned int`. -/
def wrap_u32 (x : Int) : Int := x % 2 ^ 32

/-- The macro `FD_TO_CLOCKID(fd)`, that is `((~(clockid_t) (fd) << 3) | CLOCKFD)`. -/
def FD_TO_CLOCKID (fd : Int) : Int :=
  Int.lor (wrap_s32 ((~~~ (wrap_s32 fd)) <<< (3 : Int))) CLOCKFD

/-- The macro `CLOCKID_TO_FD(clk)`, that is `((unsigned int) ~((clk) >> 3))`,
with `>>` the arithmetic shift. -/
def CLOCKID_TO_FD (clk : Int) : Int :=
  wrap_u32 (~~~ (clk >>> (3 : Nat)))

/-! ## Trace predicates -/

/-- No `socket` and no `close` call occurs in a piece of trace. -/
def quiet (t : List Call) : Prop :=
  ∀ fd, Call.socket fd ∉ t ∧ Call.close fd ∉ t

/-- The world `v` comes from `w` by calls that neither create nor close a
descriptor. -/
def quiet_step (w v : World) : Prop :=
  v.open_fds = w.open_fds ∧ ∃ t, v.trace = w.trace ++ t ∧ quiet t

/-! ## Concrete inputs used by the examples -/

/-- A world with no descriptor open and an empty trace. -/
def w0 : World := ⟨∅, []⟩

/-- A world in which descriptors 3 and 4 are open. -/
def w34 : World := ⟨{3, 4}, []⟩

/-- The descriptor array of an open transport: event socket 3, general socket 4. -/
def fda34 : fdarray := ⟨2, fun i => if i = 0 then 3 else if i = 1 then 4 else -1⟩

/-- A timestamp record of LP64 with three full slots (16 + 48 bytes). -/
def cm_full : cmsghdr := ⟨64, SOL_SOCKET, SO_TIMESTAMPING, fun i => ⟨100 + i, 7⟩⟩

/-- A timestamp record of LP64 of 16 + 32 bytes: two slots of data. -/
def cm_two_slots : cmsghdr := ⟨48, SOL_SOCKET, SO_TIMESTAMPING, fun i => ⟨200 + i, 9⟩⟩

/-- A timestamp record of LP64 of 16 + 16 bytes: one slot of data. -/
def cm_one_slot : cmsghdr := ⟨32, SOL_SOCKET, SO_TIMESTAMPING, fun i => ⟨300 + i, 11⟩⟩

/-- A record of another kind (`IPPROTO_IP` / `IP_PKTINFO`). -/
def cm_other : cmsghdr := ⟨28, 0, 8, fun _ => ⟨0, 0⟩⟩

/-- An interrupted `recvmsg` call. -/
def r_eintr : recvmsg_result := ⟨-1, EINTR, [cm_other]⟩

/-- An environment in which every call of `udp_open` succeeds; the kernel hands
out descriptors 3 and 4. -/
def env_ok : udp_open_env :=
  ⟨1, ⟨3, 0, 2, 0, 0, 0, 0⟩, ⟨4, 0, 2, 0, 0, 0, 0⟩, ⟨0, 0, 0⟩⟩

/-- A descriptor array before `udp_open`. -/
def fda0 : fdarray := ⟨0, fun _ => -1⟩

/-! ## Lemmas on `receive` -/

theorem interrupted_iff (o : recvmsg_result) :
    o.interrupted = true ↔ (o.cnt < 0 ∧ o.errno = EINTR) := by
  unfold recvmsg_result.interrupted
  simp only [Bool.and_eq_true, decide_eq_true_eq]
  constructor
  · rintro ⟨h1, h2⟩; exact ⟨h1, h2.symm⟩
  · rintro ⟨h1, h2⟩; exact ⟨h1, h2.symm⟩

theorem is_timestamping_iff (cm : cmsghdr) :
    cm.is_timestamping = true ↔ (cm.cmsg_level = SOL_SOCKET ∧ cm.cmsg_type = SO_TIMESTAMPING) := by
  unfold cmsghdr.is_timestamping
  simp only [Bool.and_eq_true, decide_eq_true_eq]
  constructor
  · rintro ⟨h1, h2⟩; exact ⟨h1.symm, h2.symm⟩
  · rintro ⟨h1, h2⟩; exact ⟨h1.symm, h2.symm⟩

/-- Interrupted `recvmsg` calls are consumed one by one; each leaves one entry
in the trace and nothing else. -/
theorem receive_skip (a : abi) (fd buflen : Int) (hwts : hw_timestamp) (flags : Int) :
    ∀ (pre tail : List recvmsg_result) (w : World),
      (∀ p ∈ pre, p.cnt < 0 ∧ p.errno = EINTR) →
      receive a (pre ++ tail) fd buflen hwts flags w =
        receive a tail fd buflen hwts flags
          ⟨w.open_fds, w.trace ++ List.replicate pre.length (Call.recvmsg fd buflen flags)⟩ := by
  intro pre
  induction pre with
  | nil => intro tail w _; simp
  | cons p pre ih =>
    intro tail w h
    have hp : p.interrupted = true := (interrupted_iff p).2 (h p (List.mem_cons_self _ _))
    have hrest : ∀ q ∈ pre, q.cnt < 0 ∧ q.errno = EINTR :=
      fun q hq => h q (List.mem_cons_of_mem _ hq)
    rw [List.cons_append, receive, if_pos hp, ih tail _ hrest]
    simp [World.record, List.replicate_succ]

/-- The run of `receive` on interrupted calls followed by a call that is not. -/
theorem receive_run (a : abi) (fd buflen : Int) (hwts : hw_timestamp) (flags : Int)
    (pre : List recvmsg_result) (o : recvmsg_result) (rest : List recvmsg_result) (w : World)
    (hpre : ∀ p ∈ pre, p.cnt < 0 ∧ p.errno = EINTR)
    (ho : ¬ (o.cnt < 0 ∧ o.errno = EINTR)) :
    receive a (pre ++ o :: rest) fd buflen hwts flags w =
      some (receive_finish a o hwts
        ⟨w.open_fds,
          w.trace ++ List.replicate (pre.length + 1) (Call.recvmsg fd buflen flags)⟩) := by
  have hi : ¬ o.interrupted = true := fun h => ho ((interrupted_iff o).1 h)
  rw [receive_skip a fd buflen hwts flags pre (o :: rest) w hpre, receive, if_neg hi]
  simp [World.record, List.replicate_succ']

/-- Records in front of the first timestamp record do not affect the scan. -/
theorem scan_control_skip (a : abi) :
    ∀ (front tail : List cmsghdr),
      (∀ c ∈ front, ¬ (c.cmsg_level = SOL_SOCKET ∧ c.cmsg_type = SO_TIMESTAMPING)) →
      scan_control a (front ++ tail) = scan_control a tail := by
  intro front
  induction front with
  | nil => intro tail _; rfl
  | cons c front ih =>
    intro tail h
    have hc : ¬ c.is_timestamping = true :=
      fun hc => h c (List.mem_cons_self _ _) ((is_timestamping_iff c).1 hc)
    rw [List.cons_append, scan_control, if_neg hc]
    exact ih tail (fun q hq => h q (List.mem_cons_of_mem _ hq))

theorem scan_control_absent (a : abi) (chain : List cmsghdr)
    (h : ∀ c ∈ chain, ¬ (c.cmsg_level = SOL_SOCKET ∧ c.cmsg_type = SO_TIMESTAMPING)) :
    scan_control a chain = scan_result.absent := by
  have := scan_control_skip a chain [] h
  simpa [scan_control] using this

theorem scan_control_first (a : abi) (front back : List cmsghdr) (cm : cmsghdr)
    (hfront : ∀ c ∈ front, ¬ (c.cmsg_level = SOL_SOCKET ∧ c.cmsg_type = SO_TIMESTAMPING))
    (hcm : cm.cmsg_level = SOL_SOCKET ∧ cm.cmsg_type = SO_TIMESTAMPING) :
    scan_control a (front ++ cm :: back) =
      if cm.cmsg_len < a.sizeof_timespec * 3 then scan_result.short
      else scan_result.found cm.data := by
  rw [scan_control_skip a front (cm :: back) hfront, scan_control,
    if_pos ((is_timestamping_iff cm).2 hcm)]

/-! ## Claims on `receive` -/

/-- C1 (the code at the failing input): on LP64 a timestamp record with
`cmsg_len` 48 carries 32 bytes of data, two slots, which is less than three
slots. The test `cm->cmsg_len < sizeof(*ts) * 3` reads `48 < 48`, so `receive`
accepts the record instead of returning -1: it returns the count 10 and
copies slot 0 in software mode and, in hardware mode, `ts[2]`, which lies
behind the data of the record. -/
theorem receive_short_payload_accepted :
    cm_two_slots.cmsg_level = SOL_SOCKET ∧ cm_two_slots.cmsg_type = SO_TIMESTAMPING ∧
      cm_two_slots.payload_len lp64 = 2 * lp64.sizeof_timespec ∧
      cm_two_slots.payload_len lp64 < 3 * lp64.sizeof_timespec ∧
      receive lp64 [⟨10, 0, [cm_two_slots]⟩] 3 1500 ⟨TS_SOFTWARE, ⟨0, 0⟩⟩ 0 w34 =
        some ⟨10, ⟨TS_SOFTWARE, cm_two_slots.data 0⟩, ⟨{3, 4}, [Call.recvmsg 3 1500 0]⟩⟩ ∧
      receive lp64 [⟨10, 0, [cm_two_slots]⟩] 3 1500 ⟨TS_HARDWARE, ⟨0, 0⟩⟩ 0 w34 =
        some ⟨10, ⟨TS_HARDWARE, cm_two_slots.data 2⟩, ⟨{3, 4}, [Call.recvmsg 3 1500 0]⟩⟩ ∧
      (10 : Int) ≠ -1 := by
  decide

/-- C2: when the first `SOL_SOCKET` / `SO_TIMESTAMPING` record of the control
chain carries three timestamp slots, `receive` returns the count `recvmsg`
returned and stores slot 0 in software mode, slot 2 in hardware mode and slot
1 in legacy hardware mode, leaving the mode itself unchanged. -/
theorem receive_selects_slot (a : abi) (fd buflen : Int) (hwts : hw_timestamp)
    (flags : Int) (pre : List recvmsg_result) (o : recvmsg_result)
    (rest : List recvmsg_result) (w : World) (front back : List cmsghdr) (cm : cmsghdr)
    (hpre : ∀ p ∈ pre, p.cnt < 0 ∧ p.errno = EINTR)
    (ho : ¬ (o.cnt < 0 ∧ o.errno = EINTR))
    (hchain : o.control = front ++ cm :: back)
    (hfront : ∀ c ∈ front, ¬ (c.cmsg_level = SOL_SOCKET ∧ c.cmsg_type = SO_TIMESTAMPING))
    (hcm : cm.cmsg_level = SOL_SOCKET ∧ cm.cmsg_type = SO_TIMESTAMPING)
    (hslots : 3 * a.sizeof_timespec ≤ cm.payload_len a) :
    ∃ r, receive a (pre ++ o :: rest) fd buflen hwts flags w = some r ∧
      r.ret = o.cnt ∧ r.hwts.type = hwts.type ∧
      (hwts.type = TS_SOFTWARE → r.hwts.ts = cm.data 0) ∧
      (hwts.type = TS_HARDWARE → r.hwts.ts = cm.data 2) ∧
      (hwts.type = TS_LEGACY_HW → r.hwts.ts = cm.data 1) := by
  refine ⟨_, receive_run a fd buflen hwts flags pre o rest w hpre ho, ?_⟩
  have hge : ¬ cm.cmsg_len < a.sizeof_timespec * 3 := by
    unfold cmsghdr.payload_len at hslots
    omega
  simp only [receive_finish, hchain, scan_control_first a front back cm hfront hcm, if_neg hge]
  cases hwts with
  | mk type ts => cases type <;> simp

theorem receive_selects_slot_witness :
    ∃ r, receive lp64 ([r_eintr] ++ ⟨10, 0, [cm_other, cm_full, cm_one_slot]⟩ :: []) 3 1500
        ⟨TS_HARDWARE, ⟨5, 6⟩⟩ 0 w34 = some r ∧
      r.ret = 10 ∧ r.hwts.type = TS_HARDWARE ∧
      (TS_HARDWARE = TS_SOFTWARE → r.hwts.ts = cm_full.data 0) ∧
      (TS_HARDWARE = TS_HARDWARE → r.hwts.ts = cm_full.data 2) ∧
      (TS_HARDWARE = TS_LEGACY_HW → r.hwts.ts = cm_full.data 1) :=
  receive_selects_slot lp64 3 1500 ⟨TS_HARDWARE, ⟨5, 6⟩⟩ 0 [r_eintr]
    ⟨10, 0, [cm_other, cm_full, cm_one_slot]⟩ [] w34 [cm_other] [cm_one_slot] cm_full
    (by decide) (by decide) rfl (by decide) (by decide) (by decide)

/-- C3: when no record of the control chain is a `SOL_SOCKET` /
`SO_TIMESTAMPING` record (the chain may be empty), `receive` adds no failure
of its own: it returns exactly the count `recvmsg` returned, sets the
timestamp to zero seconds and zero nanoseconds and leaves the mode unchanged. -/
theorem receive_without_timestamp (a : abi) (fd buflen : Int) (hwts : hw_timestamp)
    (flags : Int) (pre : List recvmsg_result) (o : recvmsg_result)
    (rest : List recvmsg_result) (w : World)
    (hpre : ∀ p ∈ pre, p.cnt < 0 ∧ p.errno = EINTR)
    (ho : ¬ (o.cnt < 0 ∧ o.errno = EINTR))
    (hnone : ∀ c ∈ o.control, ¬ (c.cmsg_level = SOL_SOCKET ∧ c.cmsg_type = SO_TIMESTAMPING)) :
    ∃ r, receive a (pre ++ o :: rest) fd buflen hwts flags w = some r ∧
      r.ret = o.cnt ∧ r.hwts.ts = ⟨0, 0⟩ ∧ r.hwts.type = hwts.type := by
  refine ⟨_, receive_run a fd buflen hwts flags pre o rest w hpre ho, ?_⟩
  simp [receive_finish, scan_control_absent a o.control hnone, timespec.zero]

theorem receive_without_timestamp_witness :
    ∃ r, receive lp64 ([r_eintr] ++ ⟨10, 0, [cm_other]⟩ :: []) 4 1500
        ⟨TS_HARDWARE, ⟨5, 6⟩⟩ 0 w34 = some r ∧
      r.ret = 10 ∧ r.hwts.ts = ⟨0, 0⟩ ∧ r.hwts.type = TS_HARDWARE :=
  receive_without_timestamp lp64 4 1500 ⟨TS_HARDWARE, ⟨5, 6⟩⟩ 0 [r_eintr]
    ⟨10, 0, [cm_other]⟩ [] w34 (by decide) (by decide) (by decide)

/-- C9: a run of `k` interrupted `recvmsg` calls (`cnt < 0` with `errno` equal
to `EINTR`) followed by a call that is not interrupted makes `receive` perform
exactly `k + 1` `recvmsg` calls and return the count and the `hw_timestamp`
it returns when that last outcome is the outcome of the only call. -/
theorem receive_eintr_invisible (a : abi) (fd buflen : Int) (hwts : hw_timestamp)
    (flags : Int) (k : Nat) (pre : List recvmsg_result) (o : recvmsg_result)
    (rest : List recvmsg_result) (w : World)
    (hk : pre.length = k)
    (hpre : ∀ p ∈ pre, p.cnt < 0 ∧ p.errno = EINTR)
    (ho : ¬ (o.cnt < 0 ∧ o.errno = EINTR)) :
    ∃ r1 rk, receive a [o] fd buflen hwts flags w = some r1 ∧
      receive a (pre ++ o :: rest) fd buflen hwts flags w = some rk ∧
      rk.ret = r1.ret ∧ rk.hwts = r1.hwts ∧
      r1.world.trace = w.trace ++ [Call.recvmsg fd buflen flags] ∧
      rk.world.trace = w.trace ++ List.replicate (k + 1) (Call.recvmsg fd buflen flags) ∧
      rk.world.open_fds = w.open_fds := by
  subst hk
  have h1 := receive_run a fd buflen hwts flags [] o [] w (by simp) ho
  refine ⟨_, _, h1, receive_run a fd buflen hwts flags pre o rest w hpre ho, ?_⟩
  simp only [receive_finish]
  cases scan_control a o.control with
  | short => simp
  | absent => simp
  | found ts =>
    cases hwts with
    | mk type t => cases type <;> simp

theorem receive_eintr_invisible_witness :
    ∃ r1 rk, receive lp64 [⟨10, 0, [cm_full]⟩] 3 1500 ⟨TS_SOFTWARE, ⟨5, 6⟩⟩ 0 w34 = some r1 ∧
      receive lp64 ([r_eintr, r_eintr] ++ ⟨10, 0, [cm_full]⟩ :: [r_eintr]) 3 1500
        ⟨TS_SOFTWARE, ⟨5, 6⟩⟩ 0 w34 = some rk ∧
      rk.ret = r1.ret ∧ rk.hwts = r1.hwts ∧
      r1.world.trace = w34.trace ++ [Call.recvmsg 3 1500 0] ∧
      rk.world.trace = w34.trace ++ List.replicate (2 + 1) (Call.recvmsg 3 1500 0) ∧
      rk.world.open_fds = w34.open_fds :=
  receive_eintr_invisible lp64 3 1500 ⟨TS_SOFTWARE, ⟨5, 6⟩⟩ 0 2 [r_eintr, r_eintr]
    ⟨10, 0, [cm_full]⟩ [r_eintr] w34 rfl (by decide) (by decide)

/-! ## Claims on `udp_send` -/

/-- C4 (counterexample): a general-channel send of 4 bytes that succeeds leaves
the timestamp (5 s, 7 ns) that the caller's `hw_timestamp` held before the
call; it is not the zero timestamp afterwards. -/
theorem udp_send_general_zero_counterexample :
    udp_send lp64 4 [] fda34 0 4 ⟨TS_SOFTWARE, ⟨5, 7⟩⟩ w34 =
        some ⟨4, ⟨TS_SOFTWARE, ⟨5, 7⟩⟩, ⟨{3, 4}, [Call.sendto 4 4 320]⟩⟩ ∧
      (⟨5, 7⟩ : timespec) ≠ ⟨0, 0⟩ := by
  decide

/-- C4 (amended): a successful send on the general channel (`event == 0`,
`sendto` returns a count of at least 1) returns that count, makes no `recvmsg`
call and leaves the caller's `hw_timestamp` exactly as it was before the call. -/
theorem udp_send_general_keeps_hwts (a : abi) (n : Int) (script : List recvmsg_result)
    (fda : fdarray) (event len : Int) (hwts : hw_timestamp) (w : World)
    (hev : event = 0) (hn : 1 ≤ n) :
    udp_send a n script fda event len hwts w =
      some ⟨n, hwts,
        ⟨w.open_fds, w.trace ++ [Call.sendto (fda.fd FD_GENERAL) len GENERAL_PORT]⟩⟩ := by
  have hlt : ¬ n < 1 := by omega
  subst hev
  simp [udp_send, hlt, World.record]

theorem udp_send_general_keeps_hwts_witness :
    udp_send lp64 4 [r_eintr] fda34 0 4 ⟨TS_HARDWARE, ⟨5, 7⟩⟩ w34 =
      some ⟨4, ⟨TS_HARDWARE, ⟨5, 7⟩⟩,
        ⟨w34.open_fds, w34.trace ++ [Call.sendto (fda34.fd FD_GENERAL) 4 GENERAL_PORT]⟩⟩ :=
  udp_send_general_keeps_hwts lp64 4 [r_eintr] fda34 0 4 ⟨TS_HARDWARE, ⟨5, 7⟩⟩ w34 rfl
    (by decide)

/-- C5 (counterexample): an event-channel send for which `sendto` returns 4 and
the error-queue `recvmsg` returns 2 together with a complete timestamp record
makes `udp_send` return 2, not 4. -/
theorem udp_send_event_count_counterexample :
    udp_send lp64 4 [⟨2, 0, [cm_full]⟩] fda34 1 4 ⟨TS_SOFTWARE, ⟨0, 0⟩⟩ w34 =
        some ⟨2, ⟨TS_SOFTWARE, ⟨100, 7⟩⟩,
          ⟨{3, 4}, [Call.sendto 3 4 319, Call.recvmsg 3 4 0x2000]⟩⟩ ∧
      (2 : Int) ≠ 4 := by
  decide

/-- C5 (amended): on a successful event-channel send (`event != 0`, `sendto`
returns a count of at least 1) `udp_send` returns what `receive` returns for
the error queue of the event socket, with the sent length as buffer length:
when that value is not negative it is the count of the error-queue `recvmsg`
call that was not interrupted, whatever count `sendto` returned. -/
theorem udp_send_event_returns_receive (a : abi) (n : Int) (fda : fdarray)
    (event len : Int) (hwts : hw_timestamp) (w : World)
    (pre : List recvmsg_result) (o : recvmsg_result) (rest : List recvmsg_result)
    (hev : event ≠ 0) (hn : 1 ≤ n)
    (hpre : ∀ p ∈ pre, p.cnt < 0 ∧ p.errno = EINTR)
    (ho : ¬ (o.cnt < 0 ∧ o.errno = EINTR)) :
    ∃ r, udp_send a n (pre ++ o :: rest) fda event len hwts w = some r ∧
      receive a (pre ++ o :: rest) (fda.fd FD_EVENT) len hwts MSG_ERRQUEUE
        ⟨w.open_fds, w.trace ++ [Call.sendto (fda.fd FD_EVENT) len EVENT_PORT]⟩ = some r ∧
      (0 ≤ r.ret → r.ret = o.cnt) := by
  have hlt : ¬ n < 1 := by omega
  have hrun := receive_run a (fda.fd FD_EVENT) len hwts MSG_ERRQUEUE pre o rest
    ⟨w.open_fds, w.trace ++ [Call.sendto (fda.fd FD_EVENT) len EVENT_PORT]⟩ hpre ho
  refine ⟨_, ?_, hrun, ?_⟩
  · rw [← hrun]
    simp [udp_send, hlt, hev, World.record]
  · simp only [receive_finish]
    cases scan_control a o.control with
    | short => simp
    | absent => simp
    | found ts =>
      cases hwts with
      | mk type t => cases type <;> simp

theorem udp_send_event_returns_receive_witness :
    ∃ r, udp_send lp64 4 ([r_eintr] ++ ⟨2, 0, [cm_full]⟩ :: []) fda34 1 4
        ⟨TS_HARDWARE, ⟨0, 0⟩⟩ w34 = some r ∧
      receive lp64 ([r_eintr] ++ ⟨2, 0, [cm_full]⟩ :: []) (fda34.fd FD_EVENT) 4
        ⟨TS_HARDWARE, ⟨0, 0⟩⟩ MSG_ERRQUEUE
        ⟨w34.open_fds, w34.trace ++ [Call.sendto (fda34.fd FD_EVENT) 4 EVENT_PORT]⟩ = some r ∧
      (0 ≤ r.ret → r.ret = (⟨2, 0, [cm_full]⟩ : recvmsg_result).cnt) :=
  udp_send_event_returns_receive lp64 4 fda34 1 4 ⟨TS_HARDWARE, ⟨0, 0⟩⟩ w34 [r_eintr]
    ⟨2, 0, [cm_full]⟩ [] (by decide) (by decide) (by decide) (by decide)

/-- C6: when `sendto` returns a count that is zero or negative, on either
channel, `udp_send` returns that count (a value below 1, which no successful
general-channel send returns), makes no `recvmsg` call (the trace grows by the
`sendto` call alone, whatever `recvmsg` would have answered) and leaves the
caller's `hw_timestamp` unchanged. -/
theorem udp_send_failed (a : abi) (n : Int) (script : List recvmsg_result)
    (fda : fdarray) (event len : Int) (hwts : hw_timestamp) (w : World)
    (hn : n ≤ 0) :
    ∃ r, udp_send a n script fda event len hwts w = some r ∧
      r.ret = n ∧ r.ret < 1 ∧ r.hwts = hwts ∧ r.world.open_fds = w.open_fds ∧
      r.world.trace = w.trace ++
        [Call.sendto (if event ≠ 0 then fda.fd FD_EVENT else fda.fd FD_GENERAL) len
          (if event ≠ 0 then EVENT_PORT else GENERAL_PORT)] ∧
      (∀ fd buflen flags, Call.recvmsg fd buflen flags ∈ r.world.trace →
        Call.recvmsg fd buflen flags ∈ w.trace) ∧
      (∀ m script2 hwts2 w2, 1 ≤ m →
        ∃ r2, udp_send a m script2 fda 0 len hwts2 w2 = some r2 ∧ 1 ≤ r2.ret) := by
  have hlt : n < 1 := by omega
  refine ⟨⟨n, hwts, w.record (Call.sendto (if event ≠ 0 then fda.fd FD_EVENT
    else fda.fd FD_GENERAL) len (if event ≠ 0 then EVENT_PORT else GENERAL_PORT))⟩,
    ?_, rfl, hlt, rfl, rfl, rfl, ?_, ?_⟩
  · simp [udp_send, hlt]
  · intro fd buflen flags h
    simpa [World.record] using h
  · intro m script2 hwts2 w2 hm
    have hm2 : ¬ m < 1 := by omega
    exact ⟨⟨m, hwts2, w2.record (Call.sendto (fda.fd FD_GENERAL) len GENERAL_PORT)⟩,
      by simp [udp_send, hm2], hm⟩

theorem udp_send_failed_witness :
    ∃ r, udp_send lp64 (-1) [⟨2, 0, [cm_full]⟩] fda34 1 4 ⟨TS_HARDWARE, ⟨5, 7⟩⟩ w34 = some r ∧
      r.ret = -1 ∧ r.ret < 1 ∧ r.hwts = ⟨TS_HARDWARE, ⟨5, 7⟩⟩ ∧
      r.world.open_fds = w34.open_fds ∧
      r.world.trace = w34.trace ++
        [Call.sendto (if (1 : Int) ≠ 0 then fda34.fd FD_EVENT else fda34.fd FD_GENERAL) 4
          (if (1 : Int) ≠ 0 then EVENT_PORT else GENERAL_PORT)] ∧
      (∀ fd buflen flags, Call.recvmsg fd buflen flags ∈ r.world.trace →
        Call.recvmsg fd buflen flags ∈ w34.trace) ∧
      (∀ m script2 hwts2 w2, 1 ≤ m →
        ∃ r2, udp_send lp64 m script2 fda34 0 4 hwts2 w2 = some r2 ∧ 1 ≤ r2.ret) :=
  udp_send_failed lp64 (-1) [⟨2, 0, [cm_full]⟩] fda34 1 4 ⟨TS_HARDWARE, ⟨5, 7⟩⟩ w34
    (by decide)

/-! ## Lemmas on opening the transport -/

theorem quiet_step_refl (w : World) : quiet_step w w :=
  ⟨rfl, [], by simp, fun _ => by simp⟩

theorem quiet_step_trans {u v w : World} (h1 : quiet_step u v) (h2 : quiet_step v w) :
    quiet_step u w := by
  obtain ⟨ho1, t1, ht1, hq1⟩ := h1
  obtain ⟨ho2, t2, ht2, hq2⟩ := h2
  refine ⟨ho2.trans ho1, t1 ++ t2, by rw [ht2, ht1, List.append_assoc], fun fd => ?_⟩
  have a := hq1 fd
  have b := hq2 fd
  simp only [List.mem_append, not_or]
  exact ⟨⟨a.1, b.1⟩, ⟨a.2, b.2⟩⟩

theorem quiet_step_record (w : World) (c : Call)
    (h1 : ∀ fd, c ≠ Call.socket fd) (h2 : ∀ fd, c ≠ Call.close fd) :
    quiet_step w (w.record c) := by
  refine ⟨rfl, [c], rfl, fun fd => ?_⟩
  simp only [List.mem_singleton]
  exact ⟨fun h => h1 fd h.symm, fun h => h2 fd h.symm⟩

/-- For a name that fits into `ifr_name` the lookup returns, with a negative
value when the `ioctl` fails. -/
theorem interface_index_defined (r x fd : Int) (name : String) (w : World)
    (hname : strlen name < IFNAMSIZ) :
    ∃ ix, interface_index r x fd name w = some ix ∧ quiet_step w ix.2 ∧
      (r < 0 → ix.1 < 0) := by
  have hn : ¬ IFNAMSIZ ≤ strlen name := by omega
  unfold interface_index
  rw [if_neg hn]
  dsimp only
  split_ifs with h
  · exact ⟨_, rfl, quiet_step_record w _ (by simp) (by simp), fun _ => h⟩
  · exact ⟨_, rfl, quiet_step_record w _ (by simp) (by simp), fun hr => absurd hr h⟩

theorem mcast_join_quiet (r fd index : Int) (grplen : Nat) (w : World) :
    quiet_step w (mcast_join r fd index grplen w).2 := by
  unfold mcast_join
  dsimp only
  split_ifs
  · exact quiet_step_refl w
  · exact quiet_step_record w _ (by simp) (by simp)
  · exact quiet_step_record w _ (by simp) (by simp)

theorem mcast_bind_quiet (r fd index : Int) (w : World) :
    quiet_step w (mcast_bind r fd index w).2 := by
  unfold mcast_bind
  dsimp only
  split_ifs <;> exact quiet_step_record w _ (by simp) (by simp)

/-- For a name that fits into `ifr_name` the option steps return; they neither
create nor close a descriptor, and they fail when the index lookup fails. -/
theorem open_socket_options_defined (e : open_socket_env) (name : String) (port fd : Int)
    (w : World) (hname : strlen name < IFNAMSIZ) :
    ∃ o, open_socket_options e name port fd w = some o ∧ quiet_step w o.2 ∧
      (e.ifindex_ioctl < 0 → o.1 = false) := by
  obtain ⟨ix, hix, h1, hneg⟩ :=
    interface_index_defined e.ifindex_ioctl e.ifr_ifindex fd name w hname
  have h2 := quiet_step_trans h1 (quiet_step_record ix.2
    (Call.setsockopt fd SOL_SOCKET SO_REUSEADDR 1) (by simp) (by simp))
  have h3 := quiet_step_trans h2 (quiet_step_record _ (Call.bind fd port) (by simp) (by simp))
  have h4 := quiet_step_trans h3 (mcast_join_quiet e.mcast_join fd ix.1 SIZEOF_SOCKADDR_IN _)
  have h5 := quiet_step_trans h4 (mcast_bind_quiet e.mcast_if fd ix.1 _)
  unfold open_socket_options
  rw [hix]
  dsimp only
  split_ifs with c1 c2 c3 c4 c5
  · exact ⟨_, rfl, h1, fun _ => rfl⟩
  · exact ⟨_, rfl, h2, fun _ => rfl⟩
  · exact ⟨_, rfl, h3, fun _ => rfl⟩
  · exact ⟨_, rfl, h4, fun _ => rfl⟩
  · exact ⟨_, rfl, h5, fun _ => rfl⟩
  · exact ⟨_, rfl, h5, fun hr => absurd (hneg hr) c1⟩

theorem hwts_init_quiet (r x fd : Int) (device : String) (w : World) :
    quiet_step w (hwts_init r x fd device w).2 :=
  quiet_step_record w _ (by simp) (by simp)

theorem timestamping_setsockopt_quiet (r fd : Int) (flags : Nat) (w : World) :
    quiet_step w (timestamping_setsockopt r fd flags w).2 := by
  unfold timestamping_setsockopt
  split_ifs <;> exact quiet_step_record w _ (by simp) (by simp)

theorem timestamping_init_quiet (e : timestamping_env) (fd : Int) (device : String)
    (type : timestamp_type) (w : World) :
    quiet_step w (timestamping_init e fd device type w).2 := by
  unfold timestamping_init
  cases timestamping_flags type with
  | none => exact quiet_step_refl w
  | some flags =>
    have h1 := hwts_init_quiet e.hwtstamp_ioctl e.hwtstamp_errno fd device w
    dsimp only
    split_ifs
    · exact h1
    · exact quiet_step_trans h1 (timestamping_setsockopt_quiet _ _ _ _)
    · exact timestamping_setsockopt_quiet _ _ _ _

/-- The three ways `open_socket` ends for a name that fits into `ifr_name`:
`socket` fails; every step succeeds and the new descriptor is returned, open;
or an option step fails and the new descriptor is closed again. -/
theorem open_socket_cases (e : open_socket_env) (name : String) (port : Int) (w : World)
    (hname : strlen name < IFNAMSIZ) :
    (e.socket < 0 ∧
      open_socket e name port w = some (-1, w.record (Call.socket e.socket))) ∨
    (0 ≤ e.socket ∧ e.ifindex_ioctl ≥ 0 ∧ ∃ v,
      quiet_step ⟨insert e.socket w.open_fds, w.trace ++ [Call.socket e.socket]⟩ v ∧
      open_socket e name port w = some (e.socket, v)) ∨
    (0 ≤ e.socket ∧ ∃ v,
      quiet_step ⟨insert e.socket w.open_fds, w.trace ++ [Call.socket e.socket]⟩ v ∧
      open_socket e name port w = some (-1, sys_close e.socket v)) := by
  by_cases hs : e.socket < 0
  · left
    refine ⟨hs, ?_⟩
    simp [open_socket, sys_socket, hs]
  · right
    obtain ⟨o, ho, hq, hlk⟩ := open_socket_options_defined e name port e.socket
      ⟨insert e.socket w.open_fds, w.trace ++ [Call.socket e.socket]⟩ hname
    cases hb : o.1 with
    | true =>
      left
      refine ⟨by omega, ?_, o.2, hq, ?_⟩
      · by_contra hneg
        have := hlk (by omega)
        rw [this] at hb
        exact Bool.noConfusion hb
      · simp [open_socket, sys_socket, hs, ho, hb]
    | false =>
      right
      refine ⟨by omega, o.2, hq, ?_⟩
      simp [open_socket, sys_socket, hs, ho, hb]

theorem closes_after_quiet (fd : Int) (t : List Call) (hq : quiet t) :
    ∀ x, 0 ≤ x → Call.socket x ∈ (Call.socket fd :: t) ++ [Call.close fd] →
      Call.close x ∈ (Call.socket fd :: t) ++ [Call.close fd] := by
  intro x _ hx
  simp only [List.cons_append, List.mem_cons, List.mem_append, List.mem_singleton,
    Call.socket.injEq] at hx
  rcases hx with hx | hx | hx
  · subst hx; simp
  · exact absurd hx (hq x).1
  · exact absurd hx (by simp)

/-- Every run of `udp_open` for a name that fits into `ifr_name` returns, and
ends in one of two ways. -/
theorem udp_open_outcome (e : udp_open_env) (name : String) (fda : fdarray)
    (ts_type : timestamp_type) (w : World)
    (hname : strlen name < IFNAMSIZ)
    (hev : 0 ≤ e.event.socket → e.event.socket ∉ w.open_fds)
    (hge : 0 ≤ e.general.socket → e.general.socket ∉ insert e.event.socket w.open_fds) :
    ∃ r, udp_open e name fda ts_type w = some r ∧
      ((r.ret = 0 ∧
        0 ≤ e.event.ifindex_ioctl ∧ 0 ≤ e.general.ifindex_ioctl ∧
        0 ≤ e.event.socket ∧ 0 ≤ e.general.socket ∧
        r.fda.fd FD_EVENT = e.event.socket ∧
        r.fda.fd FD_GENERAL = e.general.socket ∧
        r.fda.cnt = 2 ∧
        r.world.open_fds = insert e.general.socket (insert e.event.socket w.open_fds) ∧
        ∃ t, r.world.trace = w.trace ++ t ∧
          (∀ fd, Call.socket fd ∈ t ↔ (fd = e.event.socket ∨ fd = e.general.socket)) ∧
          ∀ fd, Call.close fd ∉ t) ∨
      (r.ret = -1 ∧
        r.world.open_fds = w.open_fds ∧
        r.fda = fda ∧
        ∃ t, r.world.trace = w.trace ++ t ∧
          ∀ fd, 0 ≤ fd → Call.socket fd ∈ t → Call.close fd ∈ t)) := by
  by_cases hi : e.inet_aton = 0
  · refine ⟨⟨-1, fda, w⟩, by simp [udp_open, hi], Or.inr ?_⟩
    exact ⟨rfl, rfl, rfl, [], by simp, by simp⟩
  rcases open_socket_cases e.event name EVENT_PORT w hname with
    ⟨hs, h1⟩ | ⟨hs, hx, v1, ⟨hvo, t1, hvt, hq1⟩, h1⟩ | ⟨hs, v1, ⟨hvo, t1, hvt, hq1⟩, h1⟩
  · -- the event socket could not be created
    refine ⟨⟨-1, fda, w.record (Call.socket e.event.socket)⟩,
      by simp [udp_open, hi, h1], Or.inr ?_⟩
    refine ⟨rfl, rfl, rfl, [Call.socket e.event.socket], rfl, ?_⟩
    intro fd hfd hmem
    simp only [List.mem_singleton, Call.socket.injEq] at hmem
    omega
  · -- the event socket is open
    have hnotlt : ¬ e.event.socket < 0 := by omega
    simp only at hvo hvt
    rcases open_socket_cases e.general name GENERAL_PORT v1 hname with
      ⟨gs, h2⟩ | ⟨gs, gx, v2, ⟨gvo, t2, gvt, hq2⟩, h2⟩ | ⟨gs, v2, ⟨gvo, t2, gvt, hq2⟩, h2⟩
    · -- the general socket could not be created
      refine ⟨⟨-1, fda, sys_close e.event.socket (v1.record (Call.socket e.general.socket))⟩,
        by simp [udp_open, hi, h1, hnotlt, h2], Or.inr ?_⟩
      refine ⟨rfl, ?_, rfl,
        (Call.socket e.event.socket :: (t1 ++ [Call.socket e.general.socket])) ++
          [Call.close e.event.socket], ?_, ?_⟩
      · simp only [sys_close, World.record, hvo]
        exact Finset.erase_insert (hev hs)
      · simp [sys_close, World.record, hvt]
      · intro fd hfd hmem
        simp only [List.cons_append, List.append_assoc, List.mem_cons, List.mem_append,
          List.mem_singleton, Call.socket.injEq] at hmem
        rcases hmem with hm | hm | hm | hm
        · subst hm; simp
        · exact absurd hm (hq1 fd).1
        · omega
        · exact absurd hm (by simp)
    · -- both sockets are open
      have gnotlt : ¬ e.general.socket < 0 := by omega
      simp only at gvo gvt
      obtain ⟨tvo, t3, tvt, hq3⟩ :=
        timestamping_init_quiet e.timestamping e.event.socket name ts_type v2
      by_cases hti : (timestamping_init e.timestamping e.event.socket name ts_type v2).1 ≠ 0
      · refine ⟨⟨-1, fda, sys_close e.event.socket (sys_close e.general.socket
            (timestamping_init e.timestamping e.event.socket name ts_type v2).2)⟩,
          by simp [udp_open, hi, h1, hnotlt, h2, gnotlt, hti], Or.inr ?_⟩
        refine ⟨rfl, ?_, rfl,
          (Call.socket e.event.socket :: (t1 ++ Call.socket e.general.socket :: (t2 ++ t3))) ++
            [Call.close e.general.socket, Call.close e.event.socket], ?_, ?_⟩
        · simp only [sys_close, tvo, gvo, hvo]
          rw [Finset.erase_insert (hge gs), Finset.erase_insert (hev hs)]
        · simp [sys_close, tvt, gvt, hvt]
        · intro fd hfd hmem
          simp only [List.cons_append, List.append_assoc, List.mem_cons, List.mem_append,
            List.mem_singleton, Call.socket.injEq] at hmem
          rcases hmem with hm | hm | hm | hm | hm | hm | hm
          · subst hm; simp
          · exact absurd hm (hq1 fd).1
          · subst hm; simp
          · exact absurd hm (hq2 fd).1
          · exact absurd hm (hq3 fd).1
          · exact absurd hm (by simp)
          · exact absurd hm (by simp)
      · have hti0 : (timestamping_init e.timestamping e.event.socket name ts_type v2).1 = 0 :=
          not_not.1 hti
        refine ⟨⟨0, { cnt := 2,
                      fd := Function.update (Function.update fda.fd FD_EVENT e.event.socket)
                        FD_GENERAL e.general.socket },
            (timestamping_init e.timestamping e.event.socket name ts_type v2).2⟩,
          by simp [udp_open, hi, h1, hnotlt, h2, gnotlt, hti0], Or.inl ?_⟩
        refine ⟨rfl, hx, gx, hs, gs, ?_, ?_, rfl, ?_,
          Call.socket e.event.socket :: (t1 ++ Call.socket e.general.socket :: (t2 ++ t3)),
          ?_, ?_, ?_⟩
        · simp [FD_EVENT, FD_GENERAL, Function.update]
        · simp [FD_GENERAL, Function.update]
        · rw [tvo, gvo, hvo]
        · simp [tvt, gvt, hvt]
        · intro fd
          simp only [List.mem_cons, List.mem_append, Call.socket.injEq]
          constructor
          · rintro (hm | hm | hm | hm | hm)
            · exact Or.inl hm
            · exact absurd hm (hq1 fd).1
            · exact Or.inr hm
            · exact absurd hm (hq2 fd).1
            · exact absurd hm (hq3 fd).1
          · rintro (hm | hm)
            · exact Or.inl hm
            · exact Or.inr (Or.inr (Or.inl hm))
        · intro fd
          simp only [List.mem_cons, List.mem_append, not_or]
          exact ⟨by simp, (hq1 fd).2, by simp, (hq2 fd).2, (hq3 fd).2⟩
    · -- an option step of the general socket failed
      simp only at gvo gvt
      refine ⟨⟨-1, fda, sys_close e.event.socket (sys_close e.general.socket v2)⟩,
        by simp [udp_open, hi, h1, hnotlt, h2], Or.inr ?_⟩
      refine ⟨rfl, ?_, rfl,
        (Call.socket e.event.socket :: (t1 ++ Call.socket e.general.socket :: t2)) ++
          [Call.close e.general.socket, Call.close e.event.socket], ?_, ?_⟩
      · simp only [sys_close, gvo, hvo]
        rw [Finset.erase_insert (hge gs), Finset.erase_insert (hev hs)]
      · simp [sys_close, gvt, hvt]
      · intro fd hfd hmem
        simp only [List.cons_append, List.append_assoc, List.mem_cons, List.mem_append,
          List.mem_singleton, Call.socket.injEq] at hmem
        rcases hmem with hm | hm | hm | hm | hm | hm
        · subst hm; simp
        · exact absurd hm (hq1 fd).1
        · subst hm; simp
        · exact absurd hm (hq2 fd).1
        · exact absurd hm (by simp)
        · exact absurd hm (by simp)
  · -- an option step of the event socket failed
    simp only at hvo hvt
    refine ⟨⟨-1, fda, sys_close e.event.socket v1⟩, by simp [udp_open, hi, h1], Or.inr ?_⟩
    refine ⟨rfl, ?_, rfl, (Call.socket e.event.socket :: t1) ++ [Call.close e.event.socket],
      ?_, closes_after_quiet e.event.socket t1 hq1⟩
    · simp only [sys_close, hvo]
      exact Finset.erase_insert (hev hs)
    · simp [sys_close, hvt]

/-- For a name that does not fit into `ifr_name`, once the event socket exists
the `strcpy` of `interface_index` overruns the buffer: `udp_open` has no
defined result. -/
theorem udp_open_long_name (e : udp_open_env) (name : String) (fda : fdarray)
    (ts_type : timestamp_type) (w : World)
    (hname : IFNAMSIZ ≤ strlen name) (hi : e.inet_aton ≠ 0) (hs : 0 ≤ e.event.socket) :
    udp_open e name fda ts_type w = none := by
  have hnot : ¬ e.event.socket < 0 := by omega
  simp [udp_open, open_socket, open_socket_options, interface_index, sys_socket, hi, hnot,
    hname]

/-! ## Claims on opening the transport -/

/-- C7: `udp_open` is atomic with respect to descriptors. The interface name
fits into `ifr_name` (`strlen(name) < IFNAMSIZ`, as every interface name
does), and the kernel never returns from `socket` a descriptor that is open at
that moment; every other outcome is arbitrary. Then, for every timestamp mode,
`udp_open` returns, and either it returns 0, slots `FD_EVENT` and `FD_GENERAL`
of the array hold the descriptors of the two `socket` calls it made, both are
open, `cnt` is 2 and nothing was closed; or it returns -1, the set of open
descriptors is the one before the call, every descriptor a `socket` call
returned has been closed and the array is unchanged. A failed interface-index
lookup, for either socket, always gives the second case. -/
theorem udp_open_atomic (e : udp_open_env) (name : String) (fda : fdarray)
    (ts_type : timestamp_type) (w : World)
    (hname : strlen name < IFNAMSIZ)
    (hev : 0 ≤ e.event.socket → e.event.socket ∉ w.open_fds)
    (hge : 0 ≤ e.general.socket → e.general.socket ∉ insert e.event.socket w.open_fds) :
    ∃ r, udp_open e name fda ts_type w = some r ∧
      ((r.ret = 0 ∧
          r.fda.fd FD_EVENT = e.event.socket ∧
          r.fda.fd FD_GENERAL = e.general.socket ∧
          r.fda.cnt = 2 ∧
          0 ≤ e.event.socket ∧ 0 ≤ e.general.socket ∧
          e.event.socket ∈ r.world.open_fds ∧
          e.general.socket ∈ r.world.open_fds ∧
          r.world.open_fds = insert e.general.socket (insert e.event.socket w.open_fds) ∧
          ∃ t, r.world.trace = w.trace ++ t ∧
            (∀ fd, Call.socket fd ∈ t ↔ (fd = e.event.socket ∨ fd = e.general.socket)) ∧
            ∀ fd, Call.close fd ∉ t) ∨
        (r.ret = -1 ∧
          r.world.open_fds = w.open_fds ∧
          r.fda = fda ∧
          ∃ t, r.world.trace = w.trace ++ t ∧
            ∀ fd, 0 ≤ fd → Call.socket fd ∈ t → Call.close fd ∈ t)) ∧
      ((e.event.ifindex_ioctl < 0 ∨ e.general.ifindex_ioctl < 0) →
        r.ret = -1 ∧ r.world.open_fds = w.open_fds) := by
  obtain ⟨r, hr, hcase⟩ := udp_open_outcome e name fda ts_type w hname hev hge
  refine ⟨r, hr, ?_⟩
  rcases hcase with ⟨h0, hx, gx, hs, gs, hfe, hfg, hc, ho, ht⟩ | ⟨h1, ho, hf, ht⟩
  · refine ⟨Or.inl ⟨h0, hfe, hfg, hc, hs, gs, ?_, ?_, ho, ht⟩, ?_⟩
    · rw [ho]; simp
    · rw [ho]; simp
    · intro h; omega
  · exact ⟨Or.inr ⟨h1, ho, hf, ht⟩, fun _ => ⟨h1, ho⟩⟩

theorem udp_open_atomic_witness :
    ∃ r, udp_open env_ok "eth0" fda0 TS_HARDWARE w0 = some r ∧
      ((r.ret = 0 ∧
          r.fda.fd FD_EVENT = env_ok.event.socket ∧
          r.fda.fd FD_GENERAL = env_ok.general.socket ∧
          r.fda.cnt = 2 ∧
          0 ≤ env_ok.event.socket ∧ 0 ≤ env_ok.general.socket ∧
          env_ok.event.socket ∈ r.world.open_fds ∧
          env_ok.general.socket ∈ r.world.open_fds ∧
          r.world.open_fds =
            insert env_ok.general.socket (insert env_ok.event.socket w0.open_fds) ∧
          ∃ t, r.world.trace = w0.trace ++ t ∧
            (∀ fd, Call.socket fd ∈ t ↔
              (fd = env_ok.event.socket ∨ fd = env_ok.general.socket)) ∧
            ∀ fd, Call.close fd ∉ t) ∨
        (r.ret = -1 ∧
          r.world.open_fds = w0.open_fds ∧
          r.fda = fda0 ∧
          ∃ t, r.world.trace = w0.trace ++ t ∧
            ∀ fd, 0 ≤ fd → Call.socket fd ∈ t → Call.close fd ∈ t)) ∧
      ((env_ok.event.ifindex_ioctl < 0 ∨ env_ok.general.ifindex_ioctl < 0) →
        r.ret = -1 ∧ r.world.open_fds = w0.open_fds) :=
  udp_open_atomic env_ok "eth0" fda0 TS_HARDWARE w0 (by decide) (by decide) (by decide)

/-- C8: in hardware and legacy hardware mode, when the `SIOCSHWTSTAMP` request
of `hwts_init` is rejected (`ioctl` returns a negative value and `errno` is
not zero), `timestamping_init` returns -1 and the `ioctl` is the only call it
makes: the `SO_TIMESTAMPING` option is never set. In software mode the only
call is the `setsockopt`, and the result is -1 or 0 according to its outcome
alone, whatever the `ioctl` would have answered. -/
theorem timestamping_init_arms_first (e : timestamping_env) (fd : Int) (device : String)
    (type : timestamp_type) (w : World)
    (htype : type = TS_HARDWARE ∨ type = TS_LEGACY_HW)
    (hret : e.hwtstamp_ioctl < 0) (herrno : e.hwtstamp_errno ≠ 0) :
    timestamping_init e fd device type w =
        (-1, ⟨w.open_fds, w.trace ++ [Call.ioctl fd SIOCSHWTSTAMP device]⟩) ∧
      ∀ (e2 : timestamping_env) (fd2 : Int) (device2 : String) (w2 : World),
        timestamping_init e2 fd2 device2 TS_SOFTWARE w2 =
          (if e2.so_timestamping < 0 then -1 else 0,
            ⟨w2.open_fds, w2.trace ++ [Call.setsockopt fd2 SOL_SOCKET SO_TIMESTAMPING
              (SOF_TIMESTAMPING_TX_SOFTWARE ||| SOF_TIMESTAMPING_RX_SOFTWARE |||
                SOF_TIMESTAMPING_SOFTWARE : Nat)]⟩) := by
  have hne : e.hwtstamp_ioctl ≠ 0 := by omega
  constructor
  · rcases htype with h | h <;> subst h <;>
      simp [timestamping_init, timestamping_flags, hwts_init, hne, herrno, World.record]
  · intro e2 fd2 device2 w2
    by_cases h : e2.so_timestamping < 0 <;>
      simp [timestamping_init, timestamping_flags, timestamping_setsockopt, h, World.record]

theorem timestamping_init_arms_first_witness :
    timestamping_init ⟨-1, 95, 0⟩ 3 "eth0" TS_HARDWARE w34 =
        (-1, ⟨w34.open_fds, w34.trace ++ [Call.ioctl 3 SIOCSHWTSTAMP "eth0"]⟩) ∧
      ∀ (e2 : timestamping_env) (fd2 : Int) (device2 : String) (w2 : World),
        timestamping_init e2 fd2 device2 TS_SOFTWARE w2 =
          (if e2.so_timestamping < 0 then -1 else 0,
            ⟨w2.open_fds, w2.trace ++ [Call.setsockopt fd2 SOL_SOCKET SO_TIMESTAMPING
              (SOF_TIMESTAMPING_TX_SOFTWARE ||| SOF_TIMESTAMPING_RX_SOFTWARE |||
                SOF_TIMESTAMPING_SOFTWARE : Nat)]⟩) :=
  timestamping_init_arms_first ⟨-1, 95, 0⟩ 3 "eth0" TS_HARDWARE w34 (Or.inl rfl)
    (by decide) (by decide)

/-! ## Clock-id encoding -/

theorem ldiff_low (n : Nat) : Nat.ldiff (8 * n + 7) 3 = 8 * n + 4 := by
  apply Nat.eq_of_testBit_eq
  intro i
  rw [Nat.testBit_ldiff]
  have h7 := Nat.testBit_mul_pow_two_add n (show 7 < 2^3 by norm_num) i
  have h4 := Nat.testBit_mul_pow_two_add n (show 4 < 2^3 by norm_num) i
  simp only [show (2:Nat)^3 = 8 by norm_num] at h7 h4
  rw [h7, h4]
  by_cases hi : i < 3
  · simp only [hi, if_true]
    interval_cases i <;> decide
  · simp only [hi, if_false]
    have : Nat.testBit 3 i = false := by
      apply Nat.testBit_lt_two_pow
      calc 3 < 2^3 := by norm_num
        _ ≤ 2^i := Nat.pow_le_pow_right (by norm_num) (by omega)
    simp [this]

theorem wrap_s32_id (x : Int) (h1 : -2 ^ 31 ≤ x) (h2 : x < 2 ^ 31) : wrap_s32 x = x := by
  unfold wrap_s32
  norm_num at h1 h2 ⊢
  omega

theorem int_not_eq (x : Int) : ~~~ x = -x - 1 := by
  cases x with
  | ofNat n => show Int.negSucc n = _; rw [Int.negSucc_eq]; simp; omega
  | negSucc n => show Int.ofNat n = _; rw [Int.negSucc_eq]; simp

theorem lor_low (n : Nat) : Int.lor (-(8 * (n : Int)) - 8) 3 = -(8 * (n : Int)) - 5 := by
  have e1 : -(8 * (n : Int)) - 8 = Int.negSucc (8 * n + 7) := by
    rw [Int.negSucc_eq]; push_cast; ring
  have e2 : -(8 * (n : Int)) - 5 = Int.negSucc (8 * n + 4) := by
    rw [Int.negSucc_eq]; push_cast; ring
  rw [e1, e2]
  show Int.negSucc (Nat.ldiff (8 * n + 7) 3) = _
  rw [ldiff_low]

theorem fd_to_clockid_eq (fd : Int) (h0 : 0 ≤ fd) (h1 : fd < 2 ^ 28) :
    FD_TO_CLOCKID fd = -(8 * fd) - 5 := by
  lift fd to ℕ using h0
  norm_num at h1
  have hw : wrap_s32 (fd : Int) = fd := wrap_s32_id _ (by norm_num; omega) (by norm_num; omega)
  have hs : (-(fd : Int) - 1) <<< (3 : Int) = -(8 * (fd : Int)) - 8 := by
    have := Int.shiftLeft_eq_mul_pow (-(fd : Int) - 1) 3
    norm_num at this
    rw [this]; ring
  have hw2 : wrap_s32 (-(8 * (fd : Int)) - 8) = -(8 * (fd : Int)) - 8 :=
    wrap_s32_id _ (by norm_num; omega) (by norm_num; omega)
  unfold FD_TO_CLOCKID CLOCKFD
  rw [hw, int_not_eq, hs, hw2, lor_low]

theorem land_low (n : Nat) : Int.land (-(8 * (n : Int)) - 5) 7 = 3 := by
  have e2 : -(8 * (n : Int)) - 5 = Int.negSucc (8 * n + 4) := by
    rw [Int.negSucc_eq]; push_cast; ring
  rw [e2]
  show Int.ofNat (Nat.ldiff 7 (8 * n + 4)) = 3
  have : Nat.ldiff 7 (8 * n + 4) = 3 := by
    apply Nat.eq_of_testBit_eq
    intro i
    rw [Nat.testBit_ldiff]
    have h4 := Nat.testBit_mul_pow_two_add n (show 4 < 2^3 by norm_num) i
    simp only [show (2:Nat)^3 = 8 by norm_num] at h4
    rw [h4]
    by_cases hi : i < 3
    · simp only [hi, if_true]
      interval_cases i <;> decide
    · simp only [hi, if_false]
      have h2i : 2 ^ 3 ≤ 2 ^ i := Nat.pow_le_pow_right (by norm_num) (by omega)
      have a : Nat.testBit 7 i = false := Nat.testBit_lt_two_pow (by omega)
      have b : Nat.testBit 3 i = false := Nat.testBit_lt_two_pow (by omega)
      simp [a, b]
  rw [this]; rfl

/-- C10: for every descriptor `fd` with `0 <= fd < 2^28` the clock-id macros
round-trip, `CLOCKID_TO_FD(FD_TO_CLOCKID(fd)) == fd`, and `FD_TO_CLOCKID(fd)`
is negative with its low three bits equal to `CLOCKFD`. -/
theorem clockid_roundtrip (fd : Int) (h0 : 0 ≤ fd) (h1 : fd < 2 ^ 28) :
    CLOCKID_TO_FD (FD_TO_CLOCKID fd) = fd ∧ FD_TO_CLOCKID fd < 0 ∧
      Int.land (FD_TO_CLOCKID fd) 7 = CLOCKFD ∧ FD_TO_CLOCKID fd % 8 = CLOCKFD := by
  rw [fd_to_clockid_eq fd h0 h1]
  have h1' : fd < 268435456 := by norm_num at h1; exact h1
  refine ⟨?_, by omega, ?_, ?_⟩
  · unfold CLOCKID_TO_FD wrap_u32
    rw [Int.shiftRight_eq_div_pow, int_not_eq]
    norm_num
    omega
  · lift fd to ℕ using h0
    exact land_low fd
  · unfold CLOCKFD; omega

theorem clockid_roundtrip_witness :
    CLOCKID_TO_FD (FD_TO_CLOCKID 5) = 5 ∧ FD_TO_CLOCKID 5 < 0 ∧
      Int.land (FD_TO_CLOCKID 5) 7 = CLOCKFD ∧ FD_TO_CLOCKID 5 % 8 = CLOCKFD :=
  clockid_roundtrip 5 (by decide) (by decide)

end Linuxptp
